import Mathlib

/-!
Verification of the text-form rewrite in `src/wasm/patch.py`.

The script decodes a wasm binary to text, scans the text line by line
tracking parenthesis depth, replaces every function definition that
mentions `f64` or `f32` by the stub line `(func )`, writes the result,
and re-encodes it.  We embed the scanning loop (lines 15-50 of
`patch.py`) as a state machine over lines represented as `List Char`,
and the surrounding subprocess pipeline as an `Except`-valued function.
-/

namespace WasmPatch

/-- ASCII whitespace characters removed by `str.strip()` on the ASCII
text produced by the binary-to-text converter. -/
def pyIsSpace (c : Char) : Bool :=
  c = ' ' || c = '\t' || c = '\n' || c = '\r' || c = '\x0b' || c = '\x0c'

/-- Strip whitespace from both ends of a line, as Python `line.strip()`. -/
def stripChars (l : List Char) : List Char :=
  ((l.dropWhile pyIsSpace).reverse.dropWhile pyIsSpace).reverse

/-- The function-opening marker tested by `line.strip().startswith("(func")`. -/
def funcMarker : List Char := "(func".data

/-- Does the stripped line start with the function-opening marker?
Mirrors `line.strip().startswith("(func")` in `patch.py` line 25. -/
def startsWithFunc (l : List Char) : Bool :=
  funcMarker.isPrefixOf (stripChars l)

/-- Substring containment on raw lines, as Python `pat in line`. -/
def hasSub (pat l : List Char) : Bool :=
  l.tails.any fun t => pat.isPrefixOf t

/-- Does the raw line contain a floating-point marker token?
Mirrors `'f64' in line or 'f32' in line` in `patch.py` lines 28 and 32. -/
def floatMarker (l : List Char) : Bool :=
  hasSub "f64".data l || hasSub "f32".data l

/-- Update the running parenthesis depth across one line, one character
at a time: `+1` on `(`, `-1` on `)`.  Mirrors the loop at
`patch.py` lines 34-38. -/
def lineDelta (d : Int) (l : List Char) : Int :=
  l.foldl (fun a c => if c = '(' then a + 1 else if c = ')' then a - 1 else a) d

/-- The fixed stub appended for a cleared function, `"(func )\n"`
(`patch.py` line 45). -/
def stubLine : List Char := "(func )\n".data

/-- The mutable state of the scanning loop in `patch.py` lines 17-21:
`inside_func`, `func_depth`, `clear_func`, `func_lines`, `func_sig`,
together with the output accumulator `new_lines`. -/
structure ScanState where
  insideFunc : Bool
  funcDepth : Int
  clearFunc : Bool
  funcLines : List (List Char)
  funcSig : List Char
  newLines : List (List Char)

/-- Initial state of the loop (`patch.py` lines 15-21). -/
def initState : ScanState :=
  { insideFunc := false, funcDepth := 0, clearFunc := false,
    funcLines := [], funcSig := [], newLines := [] }

/-- One iteration of the `for line in fp.readlines()` loop
(`patch.py` lines 23-50), faithful to the source: the start branch has
no `not inside_func` guard, the negative-depth test runs after the
whole line has been scanned, and the error is the raised exception. -/
def stepLine (st : ScanState) (line : List Char) : Except Unit ScanState :=
  let st1 :=
    if startsWithFunc line then
      { st with insideFunc := true, funcLines := [],
                clearFunc := floatMarker line, funcSig := stripChars line }
    else st
  if st1.insideFunc then
    let cf := st1.clearFunc || floatMarker line
    let fls := st1.funcLines ++ [line]
    let d := lineDelta st1.funcDepth line
    if d < 0 then .error ()
    else if d = 0 then
      .ok { st1 with insideFunc := false, funcDepth := d, clearFunc := cf,
                     funcLines := fls,
                     newLines := st1.newLines ++ (if cf then [stubLine] else fls) }
    else
      .ok { st1 with funcDepth := d, clearFunc := cf, funcLines := fls }
  else
    .ok { st1 with newLines := st1.newLines ++ [line] }

/-- Run the whole scanning loop over the lines of the module. -/
def runScan (lines : List (List Char)) : Except Unit ScanState :=
  lines.foldlM stepLine initState

/-- The rewritten module, as the list of output lines (`new_lines`). -/
def patchLines (lines : List (List Char)) : Except Unit (List (List Char)) :=
  (runScan lines).map ScanState.newLines

/-- Concatenate lines back into a character stream, as
`''.join(new_lines)` (`patch.py` line 53). -/
def catLines : List (List Char) → List Char
  | [] => []
  | l :: ls => l ++ catLines ls

/-- The rewritten module as raw text. -/
def patchText (lines : List (List Char)) : Except Unit (List Char) :=
  (patchLines lines).map catLines

/-! Declarative decomposition of a module into top-level forms, used to
state the preservation claims. -/

/-- A top-level form of the textual module: a plain line or a function
definition given by its lines. -/
inductive Form where
  | plain : List Char → Form
  | funcDef : List (List Char) → Form

/-- The source lines of a form. -/
def Form.srcLines : Form → List (List Char)
  | .plain l => [l]
  | .funcDef ls => ls

/-- What the rewriter emits for a form: plain lines and float-free
functions verbatim, float-marked functions as the single stub line. -/
def Form.render : Form → List (List Char)
  | .plain l => [l]
  | .funcDef ls => if ls.any floatMarker then [stubLine] else ls

/-- Concatenate the images of the forms. -/
def joinMap (g : Form → List (List Char)) : List Form → List (List Char)
  | [] => []
  | f :: fs => g f ++ joinMap g fs

/-- Continuation of a function block after its opening line: at depth
`d` (measured at line ends), each further line keeps the function open
at positive depth and does not itself look like a function opener, and
the depth is exactly `0` after the final line and not before. -/
def wfContB : Int → List (List Char) → Bool
  | d, [] => decide (d = 0)
  | d, l :: ls => decide (0 < d) && !(startsWithFunc l) && wfContB (lineDelta d l) ls

/-- Well-formed function block: opens with the marker, and its line-end
depths stay positive until they reach `0` exactly at the last line. -/
def wfFuncBlockB : List (List Char) → Bool
  | [] => false
  | l0 :: rest => startsWithFunc l0 && wfContB (lineDelta 0 l0) rest

/-- Well-formed form: a plain line must not look like a function opener. -/
def wfFormB : Form → Bool
  | .plain l => !(startsWithFunc l)
  | .funcDef ls => wfFuncBlockB ls

/-- Well-formed module decomposition. -/
def wfModuleB (fs : List Form) : Bool := fs.all wfFormB

/-- Continuation of a function block that never closes: all line-end
depths (including the final one) stay positive and no line looks like
a function opener. -/
def openContB : Int → List (List Char) → Bool
  | d, [] => decide (0 < d)
  | d, l :: ls => decide (0 < d) && !(startsWithFunc l) && openContB (lineDelta d l) ls

/-- A function block left open at end of input. -/
def openBlockB : List (List Char) → Bool
  | [] => false
  | l0 :: rest => startsWithFunc l0 && openContB (lineDelta 0 l0) rest

/-! The surrounding pipeline (`patch.py` lines 9-10 and 52-56): decoder
invocation checked by `assert`, scan/rewrite, write, encoder invocation
checked by `assert`. -/

/-- Failure of the pipeline: a converter exited nonzero (a failed
`assert res.returncode == 0`), or the scan raised. -/
inductive PatchErr where
  | toolFail : PatchErr
  | scanFail : PatchErr
deriving DecidableEq

/-- Successful pipeline outcome: the patched text that was written, and
the fact that the encoder produced the final binary. -/
structure PipeOut where
  patchedText : List (List Char)
  binOut : Bool
deriving DecidableEq

/-- The whole run of `patch.py`: the decoder runs first (its exit
status is `decodeOk`; the `assert` on line 10 aborts before any
scanning), then the scan/rewrite of the decoded lines, then the encoder
(exit status `encodeOk`; the `assert` on line 56 aborts after the
encoder, which alone produces the final binary). -/
def pipeline (decodeOk : Bool) (decoded : List (List Char)) (encodeOk : Bool) :
    Except PatchErr PipeOut :=
  if decodeOk then
    match patchLines decoded with
    | .error _ => .error .scanFail
    | .ok out => if encodeOk then .ok ⟨out, true⟩ else .error .toolFail
  else .error .toolFail

/-! Basic lemmas about the fold that runs the scanning loop. -/

theorem foldlM_scan_nil (st : ScanState) :
    ([] : List (List Char)).foldlM stepLine st = .ok st := rfl

theorem foldlM_scan_cons (l : List Char) (ls : List (List Char)) (st : ScanState) :
    (l :: ls).foldlM stepLine st =
      stepLine st l >>= fun st2 => ls.foldlM stepLine st2 := rfl

theorem foldlM_scan_append (l1 l2 : List (List Char)) (st : ScanState) :
    (l1 ++ l2).foldlM stepLine st =
      l1.foldlM stepLine st >>= fun st2 => l2.foldlM stepLine st2 := by
  induction l1 generalizing st with
  | nil => rfl
  | cons a as ih =>
    rw [List.cons_append, foldlM_scan_cons, foldlM_scan_cons]
    cases h : stepLine st a with
    | error e => rfl
    | ok st2 => exact ih st2

/-! Characterization of a single loop iteration, by the three cases of
the source: plain line, function-opening line, function-body line. -/

theorem stepLine_plain (st : ScanState) (l : List Char)
    (h1 : st.insideFunc = false) (h2 : startsWithFunc l = false) :
    stepLine st l = .ok { st with newLines := st.newLines ++ [l] } := by
  simp [stepLine, h1, h2]

theorem stepLine_enter (st : ScanState) (l : List Char)
    (h : startsWithFunc l = true) :
    stepLine st l =
      (if lineDelta st.funcDepth l < 0 then .error ()
       else if lineDelta st.funcDepth l = 0 then
        .ok { insideFunc := false, funcDepth := lineDelta st.funcDepth l,
              clearFunc := floatMarker l, funcLines := [l],
              funcSig := stripChars l,
              newLines := st.newLines ++
                (if floatMarker l then [stubLine] else [l]) }
       else
        .ok { insideFunc := true, funcDepth := lineDelta st.funcDepth l,
              clearFunc := floatMarker l, funcLines := [l],
              funcSig := stripChars l, newLines := st.newLines }) := by
  simp [stepLine, h, Bool.or_self]

theorem stepLine_body (st : ScanState) (l : List Char)
    (h1 : st.insideFunc = true) (h2 : startsWithFunc l = false) :
    stepLine st l =
      (if lineDelta st.funcDepth l < 0 then .error ()
       else if lineDelta st.funcDepth l = 0 then
        .ok { st with insideFunc := false,
                      funcDepth := lineDelta st.funcDepth l,
                      clearFunc := st.clearFunc || floatMarker l,
                      funcLines := st.funcLines ++ [l],
                      newLines := st.newLines ++
                        (if st.clearFunc || floatMarker l then [stubLine]
                         else st.funcLines ++ [l]) }
       else
        .ok { st with funcDepth := lineDelta st.funcDepth l,
                      clearFunc := st.clearFunc || floatMarker l,
                      funcLines := st.funcLines ++ [l] }) := by
  simp [stepLine, h1, h2]

/-- Any line that leaves the depth negative at its end, while inside a
function, aborts the scan at once. -/
theorem stepLine_negative (st : ScanState) (l : List Char)
    (h1 : st.insideFunc = true) (hneg : lineDelta st.funcDepth l < 0) :
    stepLine st l = .error () := by
  cases h : startsWithFunc l with
  | true => rw [stepLine_enter st l h, if_pos hneg]
  | false => rw [stepLine_body st l h1 h, if_pos hneg]

/-! Facts about the well-formedness predicates. -/

theorem openContB_pos (d : Int) (ls : List (List Char))
    (h : openContB d ls = true) : 0 < d := by
  cases ls with
  | nil => simpa [openContB] using h
  | cons l ls =>
    simp only [openContB, Bool.and_eq_true, decide_eq_true_eq] at h
    exact h.1.1

theorem wfContB_cons_pos (d : Int) (l : List Char) (ls : List (List Char))
    (h : wfContB d (l :: ls) = true) : 0 < d := by
  simp only [wfContB, Bool.and_eq_true, decide_eq_true_eq] at h
  exact h.1.1

theorem ok_bind (a : ScanState) (g : ScanState → Except Unit ScanState) :
    (Except.ok a >>= g : Except Unit ScanState) = g a := rfl

theorem joinMap_cons (g : Form → List (List Char)) (f : Form) (fs : List Form) :
    joinMap g (f :: fs) = g f ++ joinMap g fs := rfl

theorem joinMap_append (g : Form → List (List Char)) (fs1 fs2 : List Form) :
    joinMap g (fs1 ++ fs2) = joinMap g fs1 ++ joinMap g fs2 := by
  induction fs1 with
  | nil => rfl
  | cons f fs ih => simp [joinMap, ih]

/-- Scanning lines that keep a function open: the buffer and the float
flag accumulate, the depth follows the line deltas, nothing is emitted
and the scanner stays inside the function. -/
theorem scan_open (rest : List (List Char)) :
    ∀ st : ScanState, st.insideFunc = true →
    openContB st.funcDepth rest = true →
    rest.foldlM stepLine st =
      .ok { st with funcDepth := rest.foldl lineDelta st.funcDepth,
                    clearFunc := st.clearFunc || rest.any floatMarker,
                    funcLines := st.funcLines ++ rest } := by
  induction rest with
  | nil =>
    intro st _ _
    simp only [List.foldl_nil, List.any_nil, Bool.or_false, List.append_nil]
    rfl
  | cons r rs ih =>
    intro st hin hop
    simp only [openContB, Bool.and_eq_true, Bool.not_eq_true',
      decide_eq_true_eq] at hop
    obtain ⟨⟨hd0, hsw⟩, hop2⟩ := hop
    have hd2 : 0 < lineDelta st.funcDepth r := openContB_pos _ _ hop2
    rw [foldlM_scan_cons, stepLine_body st r hin hsw, if_neg (by omega),
      if_neg (by omega), ok_bind, ih _ (by simpa using hin) (by simpa using hop2)]
    simp [List.any_cons, Bool.or_assoc, List.append_assoc]

/-- Scanning the rest of a function block that closes exactly at its
last line: the scanner leaves function mode at depth `0` and emits the
stub when the float flag was or becomes set, the whole accumulated
buffer otherwise. -/
theorem scan_close (rest : List (List Char)) :
    ∀ st : ScanState, st.insideFunc = true → 0 < st.funcDepth →
    wfContB st.funcDepth rest = true →
    rest.foldlM stepLine st =
      .ok { st with insideFunc := false, funcDepth := 0,
                    clearFunc := st.clearFunc || rest.any floatMarker,
                    funcLines := st.funcLines ++ rest,
                    newLines := st.newLines ++
                      (if st.clearFunc || rest.any floatMarker then [stubLine]
                       else st.funcLines ++ rest) } := by
  induction rest with
  | nil =>
    intro st _ hd hwf
    simp only [wfContB, decide_eq_true_eq] at hwf
    omega
  | cons r rs ih =>
    intro st hin hd hwf
    simp only [wfContB, Bool.and_eq_true, Bool.not_eq_true',
      decide_eq_true_eq] at hwf
    obtain ⟨⟨-, hsw⟩, hwf2⟩ := hwf
    rw [foldlM_scan_cons, stepLine_body st r hin hsw]
    cases rs with
    | nil =>
      have hz : lineDelta st.funcDepth r = 0 := by
        simpa [wfContB] using hwf2
      rw [if_neg (by omega), if_pos hz, ok_bind, foldlM_scan_nil]
      simp [hz, List.any_cons]
    | cons r2 rs2 =>
      have hd2 : 0 < lineDelta st.funcDepth r := wfContB_cons_pos _ _ _ hwf2
      rw [if_neg (by omega), if_neg (by omega), ok_bind,
        ih _ (by simpa using hin) (by simpa using hd2) (by simpa using hwf2)]
      simp [List.any_cons, Bool.or_assoc, List.append_assoc]

/-- Scanning one well-formed function block from top level: the block
is consumed whole, the final buffer is exactly the block, the float
flag is exactly whether some line of the block carries a marker, and
the emission is the stub or the verbatim block accordingly. -/
theorem scan_funcBlock (ls : List (List Char)) (st : ScanState)
    (htop : st.funcDepth = 0) (hwf : wfFuncBlockB ls = true) :
    ∃ st2, ls.foldlM stepLine st = .ok st2 ∧ st2.insideFunc = false ∧
      st2.funcDepth = 0 ∧ st2.clearFunc = ls.any floatMarker ∧
      st2.funcLines = ls ∧
      st2.newLines = st.newLines ++
        (if ls.any floatMarker then [stubLine] else ls) := by
  cases ls with
  | nil => cases hwf
  | cons l0 rest =>
    simp only [wfFuncBlockB, Bool.and_eq_true] at hwf
    obtain ⟨hsw, hwf2⟩ := hwf
    rw [foldlM_scan_cons, stepLine_enter st l0 hsw, htop]
    cases rest with
    | nil =>
      have hz : lineDelta 0 l0 = 0 := by simpa [wfContB] using hwf2
      rw [if_neg (by omega), if_pos hz, ok_bind, foldlM_scan_nil]
      exact ⟨_, rfl, rfl, hz, by simp [List.any_cons], rfl, by simp [List.any_cons]⟩
    | cons r rs =>
      have hd2 : 0 < lineDelta 0 l0 := wfContB_cons_pos _ _ _ hwf2
      rw [if_neg (by omega), if_neg (by omega), ok_bind,
        scan_close (r :: rs) _ rfl (by simpa using hd2) (by simpa using hwf2)]
      exact ⟨_, rfl, rfl, rfl, by simp [List.any_cons],
        by simp, by simp [List.any_cons]⟩

/-- Scanning a whole well-formed module decomposition from top level:
the scanner returns to top level and the output grows by exactly the
rendering of the forms. -/
theorem scan_module (fs : List Form) :
    ∀ st : ScanState, st.insideFunc = false → st.funcDepth = 0 →
    wfModuleB fs = true →
    ∃ st2, (joinMap Form.srcLines fs).foldlM stepLine st = .ok st2 ∧
      st2.insideFunc = false ∧ st2.funcDepth = 0 ∧
      st2.newLines = st.newLines ++ joinMap Form.render fs := by
  induction fs with
  | nil =>
    intro st h1 h2 _
    exact ⟨st, rfl, h1, h2, by simp [joinMap]⟩
  | cons f fs ih =>
    intro st h1 h2 hwf
    simp only [wfModuleB, List.all_cons, Bool.and_eq_true] at hwf
    obtain ⟨hf, hfs⟩ := hwf
    rw [joinMap_cons, foldlM_scan_append]
    cases f with
    | plain l =>
      have hsw : startsWithFunc l = false := by
        simpa [wfFormB, Bool.not_eq_true'] using hf
      have hstep : (Form.plain l).srcLines.foldlM stepLine st =
          .ok { st with newLines := st.newLines ++ [l] } := by
        rw [show (Form.plain l).srcLines = [l] from rfl, foldlM_scan_cons,
          stepLine_plain st l h1 hsw, ok_bind, foldlM_scan_nil]
      rw [hstep, ok_bind]
      obtain ⟨st2, hrun, ha, hb, hc⟩ :=
        ih { st with newLines := st.newLines ++ [l] } h1 h2 hfs
      refine ⟨st2, hrun, ha, hb, ?_⟩
      rw [hc]
      simp [joinMap_cons, Form.render, List.append_assoc]
    | funcDef ls =>
      have hwfb : wfFuncBlockB ls = true := by simpa [wfFormB] using hf
      obtain ⟨stf, hstf, f1, f2, f3, f4, f5⟩ := scan_funcBlock ls st h2 hwfb
      rw [show (Form.funcDef ls).srcLines = ls from rfl, hstf, ok_bind]
      obtain ⟨st2, hrun, ha, hb, hc⟩ := ih stf f1 f2 hfs
      refine ⟨st2, hrun, ha, hb, ?_⟩
      rw [hc, f5]
      simp [joinMap_cons, Form.render, List.append_assoc]

/-- Every proper prefix of a closing continuation is an open
continuation: the function has not yet closed there. -/
theorem wfContB_take (rest : List (List Char)) :
    ∀ (d : Int) (k : Nat), wfContB d rest = true → k < rest.length →
    openContB d (rest.take k) = true := by
  induction rest with
  | nil =>
    intro d k _ hk
    exact absurd hk (by simp)
  | cons r rs ih =>
    intro d k hwf hk
    simp only [wfContB, Bool.and_eq_true, Bool.not_eq_true',
      decide_eq_true_eq] at hwf
    obtain ⟨⟨hd, hsw⟩, hwf2⟩ := hwf
    cases k with
    | zero => simp [openContB, hd]
    | succ k2 =>
      have hk2 : k2 < rs.length := by simpa using hk
      simp [List.take, openContB, hd, hsw, ih _ k2 hwf2 hk2]

/-- A form whose function (if it is one) carries no floating-point
marker on any line. -/
def cleanFormB : Form → Bool
  | .plain _ => true
  | .funcDef ls => !(ls.any floatMarker)

theorem joinMap_render_clean (fs : List Form) (h : fs.all cleanFormB = true) :
    joinMap Form.render fs = joinMap Form.srcLines fs := by
  induction fs with
  | nil => rfl
  | cons f fs ih =>
    simp only [List.all_cons, Bool.and_eq_true] at h
    obtain ⟨hf, hfs⟩ := h
    cases f with
    | plain l => simp [joinMap_cons, Form.render, Form.srcLines, ih hfs]
    | funcDef ls =>
      have hfl : ls.any floatMarker = false := by
        simpa [cleanFormB, Bool.not_eq_true'] using hf
      simp [joinMap_cons, Form.render, Form.srcLines, hfl, ih hfs]

/-- Claim C1 (amended): for every module made of plain lines and
terminated function definitions none of whose body lines after the
opening line look like a function opener, the rewrite succeeds and its
output is the in-order concatenation of the renderings of the forms,
where every plain line and every function without a float marker
renders to itself verbatim. -/
theorem c1_order_preservation (fs : List Form) (hwf : wfModuleB fs = true) :
    patchLines (joinMap Form.srcLines fs) = .ok (joinMap Form.render fs) ∧
    (∀ l, Form.plain l ∈ fs → (Form.plain l).render = [l]) ∧
    (∀ ls, Form.funcDef ls ∈ fs → ls.any floatMarker = false →
      (Form.funcDef ls).render = ls) := by
  refine ⟨?_, ?_, ?_⟩
  · obtain ⟨st2, hrun, -, -, hnl⟩ := scan_module fs initState rfl rfl hwf
    unfold patchLines runScan
    rw [hrun]
    simp [Except.map, hnl, initState]
  · intro l _
    rfl
  · intro ls _ h
    simp [Form.render, h]

/-- Claim C1 witness at a concrete module: a plain header, one
float-marked function (stubbed), one clean function (verbatim), a
plain trailer. -/
theorem c1_witness :
    wfModuleB
      [Form.plain "(module\n".data,
       Form.funcDef ["  (func $bad (param f64) (result f64)\n".data,
                     "    (local.get 0)\n".data, "  )\n".data],
       Form.funcDef ["  (func $good (param i32) (result i32)\n".data,
                     "    (local.get 0)\n".data, "  )\n".data],
       Form.plain ")\n".data] = true ∧
    patchLines
      ["(module\n".data,
       "  (func $bad (param f64) (result f64)\n".data,
       "    (local.get 0)\n".data, "  )\n".data,
       "  (func $good (param i32) (result i32)\n".data,
       "    (local.get 0)\n".data, "  )\n".data,
       ")\n".data] =
      .ok ["(module\n".data, stubLine,
           "  (func $good (param i32) (result i32)\n".data,
           "    (local.get 0)\n".data, "  )\n".data, ")\n".data] := by
  refine ⟨rfl, ?_⟩
  have h := (c1_order_preservation
    [Form.plain "(module\n".data,
     Form.funcDef ["  (func $bad (param f64) (result f64)\n".data,
                   "    (local.get 0)\n".data, "  )\n".data],
     Form.funcDef ["  (func $good (param i32) (result i32)\n".data,
                   "    (local.get 0)\n".data, "  )\n".data],
     Form.plain ")\n".data] rfl).1
  exact h.trans rfl

/-- Claim C1 counterexample to the claim as stated: the two lines form
one function definition in the sense of the specification (the first
line opens it, the depth returns to zero at the end of the second
line), it has no float marker, and the input scans without error — yet
the first line is dropped from the output, because the second line's
trimmed content also starts with the marker and resets the scanner's
accumulation buffer mid-function. -/
theorem c1_counterexample :
    startsWithFunc "(func $keep\n".data = true ∧
    lineDelta 0 "(func $keep\n".data = 1 ∧
    lineDelta 1 "(funcX))\n".data = 0 ∧
    floatMarker "(func $keep\n".data = false ∧
    floatMarker "(funcX))\n".data = false ∧
    patchLines ["(func $keep\n".data, "(funcX))\n".data] =
      .ok ["(funcX))\n".data] :=
  ⟨rfl, rfl, rfl, rfl, rfl, rfl⟩

/-- Claim C2: in any well-formed module, a function definition with a
float marker is replaced, in place, by exactly the single fixed stub
line, and the stub line carries no float marker. -/
theorem c2_stub_rewrite (fs1 fs2 : List Form) (ls : List (List Char))
    (hwf : wfModuleB (fs1 ++ Form.funcDef ls :: fs2) = true)
    (hfl : ls.any floatMarker = true) :
    patchLines (joinMap Form.srcLines (fs1 ++ Form.funcDef ls :: fs2)) =
      .ok (joinMap Form.render fs1 ++ stubLine :: joinMap Form.render fs2) ∧
    floatMarker stubLine = false := by
  constructor
  · obtain ⟨st2, hrun, -, -, hnl⟩ :=
      scan_module (fs1 ++ Form.funcDef ls :: fs2) initState rfl rfl hwf
    unfold patchLines runScan
    rw [hrun]
    simp only [Except.map]
    rw [hnl]
    simp [joinMap_append, joinMap_cons, Form.render, hfl, initState]
  · rfl

/-- Claim C2 witness: Scenario A, a five-line function mentioning
`f64`, between a plain header and trailer, collapses to the stub. -/
theorem c2_witness :
    patchLines
      ["(module\n".data,
       "  (func $f (param f64) (result f64)\n".data,
       "    (local $t f64)\n".data,
       "    (block\n".data,
       "    )\n".data,
       "  )\n".data,
       ")\n".data] =
      .ok ["(module\n".data, stubLine, ")\n".data] ∧
    floatMarker stubLine = false := by
  have h := c2_stub_rewrite [Form.plain "(module\n".data]
    [Form.plain ")\n".data]
    ["  (func $f (param f64) (result f64)\n".data,
     "    (local $t f64)\n".data,
     "    (block\n".data,
     "    )\n".data,
     "  )\n".data] rfl rfl
  exact ⟨h.1.trans rfl, h.2⟩

/-- Claim C5: a well-formed function block is delimited exactly: the
scanner consumes the whole block into its buffer, closes it at its
last line (where the line-end depth first returns to zero), and on any
shorter nonempty prefix it is still inside the function with nothing
emitted.  Nested balanced sub-expressions, which keep intermediate
depths positive, therefore never terminate the function early, and a
single-line block is delimited as that one line. -/
theorem c5_boundary (ls : List (List Char)) (hwf : wfFuncBlockB ls = true) :
    (∃ st, runScan ls = .ok st ∧ st.insideFunc = false ∧ st.funcLines = ls ∧
      st.newLines = (if ls.any floatMarker then [stubLine] else ls)) ∧
    (∀ k, 0 < k → k < ls.length →
      ∃ st, runScan (ls.take k) = .ok st ∧ st.insideFunc = true ∧
        st.newLines = []) := by
  constructor
  · obtain ⟨st2, hrun, h1, -, -, h4, h5⟩ := scan_funcBlock ls initState rfl hwf
    exact ⟨st2, hrun, h1, h4, by simpa [initState] using h5⟩
  · intro k hk0 hklen
    cases ls with
    | nil => cases hwf
    | cons l0 rest =>
      simp only [wfFuncBlockB, Bool.and_eq_true] at hwf
      obtain ⟨hsw, hwf2⟩ := hwf
      cases k with
      | zero => exact absurd hk0 (lt_irrefl 0)
      | succ k2 =>
        have hk2 : k2 < rest.length := by simpa using hklen
        have hop : openContB (lineDelta 0 l0) (rest.take k2) = true :=
          wfContB_take rest _ k2 hwf2 hk2
        have hd : 0 < lineDelta 0 l0 := openContB_pos _ _ hop
        rw [show (l0 :: rest).take (k2 + 1) = l0 :: rest.take k2 from rfl]
        unfold runScan
        rw [foldlM_scan_cons, stepLine_enter initState l0 hsw,
          show initState.funcDepth = 0 from rfl, if_neg (by omega),
          if_neg (by omega), ok_bind,
          scan_open (rest.take k2) _ rfl (by simpa using hop)]
        exact ⟨_, rfl, rfl, rfl⟩

/-- Claim C5 witness: a four-line function whose body raises the depth
to three via nested blocks is delimited as all four lines and is still
open after two lines; a single-line function is delimited as itself. -/
theorem c5_witness :
    (runScan ["(func $n (param i32)\n".data, "  (block (block\n".data,
              "  ))\n".data, ")\n".data]).map ScanState.funcLines =
      .ok ["(func $n (param i32)\n".data, "  (block (block\n".data,
           "  ))\n".data, ")\n".data] ∧
    (runScan (["(func $n (param i32)\n".data, "  (block (block\n".data,
               "  ))\n".data, ")\n".data].take 2)).map ScanState.insideFunc =
      .ok true ∧
    (runScan ["(func $one (param i32) (result i32) (local.get 0))\n".data]).map
        ScanState.newLines =
      .ok ["(func $one (param i32) (result i32) (local.get 0))\n".data] := by
  obtain ⟨⟨st, h1, -, h3, -⟩, hpre⟩ := c5_boundary
    ["(func $n (param i32)\n".data, "  (block (block\n".data,
     "  ))\n".data, ")\n".data] rfl
  obtain ⟨st2, g1, g2, -⟩ := hpre 2 (by omega) (by simp)
  obtain ⟨⟨st3, k1, -, -, k4⟩, -⟩ := c5_boundary
    ["(func $one (param i32) (result i32) (local.get 0))\n".data] rfl
  refine ⟨?_, ?_, ?_⟩
  · rw [h1]
    exact congrArg Except.ok h3
  · rw [g1]
    exact congrArg Except.ok g2
  · have hfl : (["(func $one (param i32) (result i32) (local.get 0))\n".data] :
        List (List Char)).any floatMarker = false := rfl
    rw [hfl] at k4
    simp only [Bool.false_eq_true, if_false] at k4
    rw [k1]
    exact congrArg Except.ok k4

/-- Claim C8 (amended): on a well-formed module in which no function
carries a float marker and no function-body line after an opening line
looks like a function opener, the rewrite reproduces the input exactly,
hence applying it twice equals applying it once, byte for byte. -/
theorem c8_idempotence (fs : List Form) (hwf : wfModuleB fs = true)
    (hclean : fs.all cleanFormB = true) :
    patchLines (joinMap Form.srcLines fs) = .ok (joinMap Form.srcLines fs) ∧
    (patchLines (joinMap Form.srcLines fs) >>= patchLines) =
      patchLines (joinMap Form.srcLines fs) ∧
    patchText (joinMap Form.srcLines fs) =
      .ok (catLines (joinMap Form.srcLines fs)) := by
  obtain ⟨st2, hrun, -, -, hnl⟩ := scan_module fs initState rfl rfl hwf
  have h1 : patchLines (joinMap Form.srcLines fs) =
      .ok (joinMap Form.srcLines fs) := by
    unfold patchLines runScan
    rw [hrun]
    simp [Except.map, hnl, initState, joinMap_render_clean fs hclean]
  refine ⟨h1, ?_, ?_⟩
  · rw [h1]
    exact h1
  · unfold patchText
    rw [h1]
    rfl

/-- Claim C8 witness: a concrete clean module round-trips unchanged,
and a second application changes nothing. -/
theorem c8_witness :
    patchLines
      ["(module\n".data,
       "  (func $id (param i32) (result i32)\n".data,
       "    (local.get 0)\n".data, "  )\n".data, ")\n".data] =
      .ok ["(module\n".data,
           "  (func $id (param i32) (result i32)\n".data,
           "    (local.get 0)\n".data, "  )\n".data, ")\n".data] ∧
    (patchLines
      ["(module\n".data,
       "  (func $id (param i32) (result i32)\n".data,
       "    (local.get 0)\n".data, "  )\n".data, ")\n".data] >>= patchLines) =
      patchLines
        ["(module\n".data,
         "  (func $id (param i32) (result i32)\n".data,
         "    (local.get 0)\n".data, "  )\n".data, ")\n".data] := by
  have h := c8_idempotence
    [Form.plain "(module\n".data,
     Form.funcDef ["  (func $id (param i32) (result i32)\n".data,
                   "    (local.get 0)\n".data, "  )\n".data],
     Form.plain ")\n".data] rfl rfl
  exact ⟨h.1, h.2.1⟩

/-- Claim C8 counterexample to the claim as stated: a two-line module
with no float marker anywhere that, per the specification's data model,
decomposes into a single well-formed function definition (the first
line opens it and the depth returns to zero at the end of the second
line).  One application of the rewrite drops the first line; applying
the rewrite to that output raises the negative-depth error, so running
the rewrite twice does not reproduce the output of running it once. -/
theorem c8_counterexample :
    startsWithFunc "(func $c\n".data = true ∧
    lineDelta 0 "(func $c\n".data = 1 ∧
    lineDelta 1 "(funcZ))\n".data = 0 ∧
    floatMarker "(func $c\n".data = false ∧
    floatMarker "(funcZ))\n".data = false ∧
    patchLines ["(func $c\n".data, "(funcZ))\n".data] =
      .ok ["(funcZ))\n".data] ∧
    patchLines ["(funcZ))\n".data] = .error () :=
  ⟨rfl, rfl, rfl, rfl, rfl, rfl, rfl⟩

/-- Claim C10: for every well-formed function block, the recorded
float flag is true exactly when some raw line of the block contains
`f64` or `f32` as a case-sensitive substring, and the block is stubbed
exactly when the flag is set. -/
theorem c10_flag_semantics (ls : List (List Char)) (hwf : wfFuncBlockB ls = true) :
    ∃ st, runScan ls = .ok st ∧ st.insideFunc = false ∧
      (st.clearFunc = true ↔
        ∃ l ∈ ls, hasSub "f64".data l = true ∨ hasSub "f32".data l = true) ∧
      st.newLines = (if st.clearFunc then [stubLine] else ls) := by
  obtain ⟨st2, hrun, h1, -, hcf, -, h5⟩ := scan_funcBlock ls initState rfl hwf
  refine ⟨st2, hrun, h1, ?_, ?_⟩
  · rw [hcf]
    simp [List.any_eq_true, floatMarker, Bool.or_eq_true]
  · rw [hcf]
    simpa [initState] using h5

/-- Claim C10 witness: a function whose only occurrence of `f64` is
inside an identifier is still flagged and stubbed. -/
theorem c10_witness :
    (runScan ["(func $my_f64_helper (param i32) (result i32)\n".data,
              "  (local.get 0)\n".data, ")\n".data]).map ScanState.clearFunc =
      .ok true := by
  obtain ⟨st, hrun, -, hiff, -⟩ := c10_flag_semantics
    ["(func $my_f64_helper (param i32) (result i32)\n".data,
     "  (local.get 0)\n".data, ")\n".data] rfl
  have hcf : st.clearFunc = true := by
    refine hiff.mpr ⟨"(func $my_f64_helper (param i32) (result i32)\n".data,
      ?_, Or.inl rfl⟩
    simp
  rw [hrun]
  exact congrArg Except.ok hcf

/-- Claim C3 (amended): the scan aborts with the depth error, emitting
no partial output, whenever the cumulative parenthesis depth is
negative at the end of a line scanned inside a function, whatever input
follows.  The check in the code runs once per line, after the whole
line has been scanned, not at each character. -/
theorem c3_negative_depth_at_line_end (pre : List (List Char))
    (line : List Char) (post : List (List Char)) (st : ScanState)
    (hpre : runScan pre = .ok st) (hin : st.insideFunc = true)
    (hneg : lineDelta st.funcDepth line < 0) :
    patchLines (pre ++ line :: post) = .error () := by
  unfold patchLines runScan
  unfold runScan at hpre
  rw [foldlM_scan_append, hpre, ok_bind, foldlM_scan_cons,
    stepLine_negative st line hin hneg]
  rfl

/-- Claim C3 witness: a line that closes three parentheses at depth one
aborts the scan. -/
theorem c3_witness :
    patchLines ["(func $f\n".data, ")))\n".data] = .error () := by
  have h := c3_negative_depth_at_line_end ["(func $f\n".data] ")))\n".data []
    { insideFunc := true, funcDepth := 1, clearFunc := false,
      funcLines := ["(func $f\n".data],
      funcSig := stripChars "(func $f\n".data, newLines := [] }
    rfl rfl (by decide)
  exact h

/-- Claim C3 counterexample to the claim as stated: inside a function
at depth one, the second line's running depth dips to `-1` after its
first two characters but ends the line at depth one; the code checks
the depth only after the whole line, so the scan succeeds and emits
output instead of failing. -/
theorem c3_counterexample :
    lineDelta 0 "(func $f\n".data = 1 ∧
    lineDelta 1 (("))((\n".data).take 2) = -1 ∧
    lineDelta 1 "))((\n".data = 1 ∧
    patchLines ["(func $f\n".data, "))((\n".data, ")\n".data] =
      .ok ["(func $f\n".data, "))((\n".data, ")\n".data] :=
  ⟨rfl, rfl, rfl, rfl⟩

/-- Claim C4 (amended): when the input ends while the scanner is still
inside an open function, no error is raised: the run completes and the
output silently omits every line accumulated for the open function. -/
theorem c4_unterminated_dropped (fs : List Form) (ls : List (List Char))
    (hwf : wfModuleB fs = true) (hop : openBlockB ls = true) :
    ∃ st, runScan (joinMap Form.srcLines fs ++ ls) = .ok st ∧
      st.insideFunc = true ∧
      patchLines (joinMap Form.srcLines fs ++ ls) =
        .ok (joinMap Form.render fs) := by
  cases ls with
  | nil => cases hop
  | cons l0 rest =>
    simp only [openBlockB, Bool.and_eq_true] at hop
    obtain ⟨hsw, hop2⟩ := hop
    have hd : 0 < lineDelta 0 l0 := openContB_pos _ _ hop2
    obtain ⟨st2, hrun, h1, h2, hnl⟩ := scan_module fs initState rfl rfl hwf
    unfold patchLines runScan
    rw [foldlM_scan_append, hrun, ok_bind, foldlM_scan_cons,
      stepLine_enter st2 l0 hsw, h2, if_neg (by omega), if_neg (by omega),
      ok_bind, scan_open rest _ rfl (by simpa using hop2)]
    refine ⟨_, rfl, rfl, ?_⟩
    simp [Except.map, hnl, initState]

/-- Claim C4 witness: a module whose trailing function never closes
loses that function silently while the preceding plain line appears. -/
theorem c4_witness :
    patchLines ["(module\n".data, "  (func $open\n".data] =
      .ok ["(module\n".data] := by
  obtain ⟨st, -, -, hp⟩ := c4_unterminated_dropped
    [Form.plain "(module\n".data] ["  (func $open\n".data] rfl rfl
  exact hp

/-- Claim C4 counterexample to the claim as stated: an input consisting
of one unterminated function opening scans without any error — the
scanner ends still inside the function and the program produces
(empty) rewritten output instead of failing. -/
theorem c4_counterexample :
    startsWithFunc "(func $open (param i32)\n".data = true ∧
    (runScan ["(func $open (param i32)\n".data]).map ScanState.insideFunc =
      .ok true ∧
    patchLines ["(func $open (param i32)\n".data] = .ok [] :=
  ⟨rfl, rfl, rfl⟩

/-- Claim C6 (amended): a line whose trimmed content starts with the
function-opening marker always restarts the accumulation — the
scanner's prior in-function flag, buffer, float flag and signature have
no effect on the result of the step; only the depth counter and the
output emitted so far carry over. -/
theorem c6_opener_always_resets (line : List Char) (st1 st2 : ScanState)
    (h : startsWithFunc line = true)
    (hd : st1.funcDepth = st2.funcDepth) (hn : st1.newLines = st2.newLines) :
    stepLine st1 line = stepLine st2 line := by
  rw [stepLine_enter st1 line h, stepLine_enter st2 line h, hd, hn]

/-- Claim C6 witness: two states that disagree on the in-function
flag, the buffer and the float flag, but agree on depth and output,
step identically on an opener line. -/
theorem c6_witness :
    stepLine { insideFunc := true, funcDepth := 2, clearFunc := true,
               funcLines := ["(junk\n".data], funcSig := [],
               newLines := ["(out)\n".data] } "(func $w\n".data =
    stepLine { insideFunc := false, funcDepth := 2, clearFunc := false,
               funcLines := [], funcSig := [],
               newLines := ["(out)\n".data] } "(func $w\n".data :=
  c6_opener_always_resets "(func $w\n".data _ _ rfl rfl rfl

/-- Claim C6 counterexample to the claim as stated: while already
inside the function opened by the first line, the second line — whose
trimmed content also starts with the marker — is not treated as an
ordinary body line: it resets the accumulation, so the emitted function
consists of the second line alone and the first line is lost. -/
theorem c6_counterexample :
    startsWithFunc "(func $a\n".data = true ∧
    lineDelta 0 "(func $a\n".data = 1 ∧
    startsWithFunc "(func $b))\n".data = true ∧
    patchLines ["(func $a\n".data, "(func $b))\n".data] =
      .ok ["(func $b))\n".data] ∧
    (["(func $b))\n".data] : List (List Char)) ≠
      ["(func $a\n".data, "(func $b))\n".data] :=
  ⟨rfl, rfl, rfl, rfl, by decide⟩

/-- Claim C7 (amended): across lines that do not themselves look like
a function opener, the float flag is monotonic: if it is set before the
line, it is still set after, and if that line closes the function the
emission is the stub.  (A body line that looks like an opener resets
the flag instead — see the counterexample.) -/
theorem c7_monotone_without_reset (st : ScanState) (line : List Char)
    (st2 : ScanState) (hin : st.insideFunc = true)
    (hno : startsWithFunc line = false) (hcf : st.clearFunc = true)
    (hstep : stepLine st line = .ok st2) :
    st2.clearFunc = true ∧
    (st2.insideFunc = false → st2.newLines = st.newLines ++ [stubLine]) := by
  rw [stepLine_body st line hin hno] at hstep
  by_cases hneg : lineDelta st.funcDepth line < 0
  · rw [if_pos hneg] at hstep
    cases hstep
  · rw [if_neg hneg] at hstep
    by_cases hz : lineDelta st.funcDepth line = 0
    · rw [if_pos hz] at hstep
      injection hstep with hstep
      subst hstep
      exact ⟨by simp [hcf], fun _ => by simp [hcf]⟩
    · rw [if_neg hz] at hstep
      injection hstep with hstep
      subst hstep
      refine ⟨by simp [hcf], ?_⟩
      intro hfalse
      simp only [ScanState.mk.injEq] at hfalse
      simp [hin] at hfalse

/-- Claim C7 witness: a state with the flag already set, stepped over
the closing line of the function, keeps the flag and emits the stub. -/
theorem c7_witness :
    (stepLine { insideFunc := true, funcDepth := 1, clearFunc := true,
                funcLines := ["(func $h (param f64)\n".data],
                funcSig := [], newLines := [] } ")\n".data).map
        ScanState.newLines = .ok [stubLine] := by
  have h := c7_monotone_without_reset
    { insideFunc := true, funcDepth := 1, clearFunc := true,
      funcLines := ["(func $h (param f64)\n".data],
      funcSig := [], newLines := [] } ")\n".data
    { insideFunc := false, funcDepth := 0, clearFunc := true,
      funcLines := ["(func $h (param f64)\n".data, ")\n".data],
      funcSig := [], newLines := [stubLine] } rfl rfl rfl rfl
  exact congrArg Except.ok ((h.2 rfl).trans rfl)

/-- Claim C7 counterexample to the claim as stated: the function
definition spanning both lines sees `f64` on its opening line, yet the
second line (whose trimmed content starts with the marker) resets the
flag to false, and the function is emitted verbatim instead of being
stubbed. -/
theorem c7_counterexample :
    floatMarker "(func $g (param f64)\n".data = true ∧
    lineDelta 0 "(func $g (param f64)\n".data = 1 ∧
    startsWithFunc "(funcY))\n".data = true ∧
    lineDelta 1 "(funcY))\n".data = 0 ∧
    (runScan ["(func $g (param f64)\n".data, "(funcY))\n".data]).map
        ScanState.clearFunc = .ok false ∧
    patchLines ["(func $g (param f64)\n".data, "(funcY))\n".data] =
      .ok ["(funcY))\n".data] ∧
    (["(funcY))\n".data] : List (List Char)) ≠ [stubLine] :=
  ⟨rfl, rfl, rfl, rfl, rfl, rfl, by decide⟩

/-- Claim C9: the pipeline is fail-fast and atomic around the two
converter invocations: a failed decoder aborts with a tool error before
the scan (the result does not depend on the decoded text at all); a
failed encoder aborts with a tool error and no final binary; a
successful run implies the encoder ran successfully exactly once on the
scanned output. -/
theorem c9_pipeline_fail_fast :
    (∀ (d1 d2 : List (List Char)) (e1 e2 : Bool),
      pipeline false d1 e1 = .error .toolFail ∧
      pipeline false d1 e1 = pipeline false d2 e2) ∧
    (∀ (d out : List (List Char)),
      patchLines d = .ok out → pipeline true d false = .error .toolFail) ∧
    (∀ (d : List (List Char)) (e : Bool) (r : PipeOut),
      pipeline true d e = .ok r →
        e = true ∧ patchLines d = .ok r.patchedText ∧ r.binOut = true) := by
  refine ⟨fun d1 d2 e1 e2 => ⟨rfl, rfl⟩, ?_, ?_⟩
  · intro d out h
    simp [pipeline, h]
  · intro d e r h
    rw [show pipeline true d e = (match patchLines d with
      | .error _ => .error .scanFail
      | .ok out => if e then .ok ⟨out, true⟩ else .error .toolFail) from rfl] at h
    cases hp : patchLines d with
    | error u =>
      rw [hp] at h
      cases h
    | ok out =>
      rw [hp] at h
      cases e with
      | false =>
        simp only [Bool.false_eq_true, if_false] at h
        cases h
      | true =>
        simp only [if_true] at h
        injection h with h2
        subst h2
        exact ⟨rfl, rfl, rfl⟩

/-- Claim C9 witness: a failed decoder yields the tool error; a failed
encoder on a scannable module yields the tool error; a successful run
on a one-line module returns its text with the binary produced. -/
theorem c9_witness :
    pipeline false ["(x\n".data] true = .error PatchErr.toolFail ∧
    pipeline true ["(module)\n".data] false = .error PatchErr.toolFail ∧
    (true = true ∧
      patchLines ["(module)\n".data] =
        .ok (PipeOut.mk ["(module)\n".data] true).patchedText ∧
      (PipeOut.mk ["(module)\n".data] true).binOut = true) :=
  ⟨(c9_pipeline_fail_fast.1 ["(x\n".data] [] true true).1,
   c9_pipeline_fail_fast.2.1 ["(module)\n".data] ["(module)\n".data] rfl,
   c9_pipeline_fail_fast.2.2 ["(module)\n".data] true
     ⟨["(module)\n".data], true⟩ rfl⟩

end WasmPatch
